import Mathlib

/-!
Verification development for the geminicli C++ SDK.

The definitions below are a shallow embedding of the SDK's C++ sources
(`types.cpp`, `auth.cpp`, `backend.cpp`, `session.cpp`).  External effects
(HTTP transport, credential file, wall clock) are passed in explicitly as
oracle values, and each modelled operation returns, besides its result, a
trace of the observable actions it performed (network calls, file writes,
credential invalidation), so that the specification's statements about
"exactly one refresh", "no further retry", and event ordering become
statements about those traces.
-/

namespace GeminiSDK

/-- Minimal JSON value: the credential file and tool-call arguments only ever
hold strings and integers at the places the modelled code inspects. -/
inductive JVal where
  | str (s : String)
  | int (n : Int)
deriving DecidableEq

/-- A JSON object, as a key/value association list. -/
abbrev Json := List (String × JVal)

/-- `j.value(key, dflt)` for string-typed fields (types.cpp uses it with
string defaults); missing keys yield the default. -/
def Json.valueStr (j : Json) (key : String) (dflt : String) : String :=
  match j.lookup key with
  | some (JVal.str s) => s
  | _ => dflt

/-- `j.value(key, dflt)` for integer-typed fields. -/
def Json.valueInt (j : Json) (key : String) (dflt : Int) : Int :=
  match j.lookup key with
  | some (JVal.int n) => n
  | _ => dflt

/-- `GeminiOAuthCredentials` (types.hpp): the persisted OAuth credential. -/
structure GeminiOAuthCredentials where
  access_token : String
  refresh_token : String
  token_type : String := "Bearer"
  expiry_date : Int := 0
deriving DecidableEq

/-- `GeminiOAuthCredentials::from_json` (types.cpp). -/
def GeminiOAuthCredentials.from_json (j : Json) : GeminiOAuthCredentials :=
  { access_token := j.valueStr "access_token" ""
    refresh_token := j.valueStr "refresh_token" ""
    token_type := j.valueStr "token_type" "Bearer"
    expiry_date := j.valueInt "expiry_date" 0 }

/-- `GeminiOAuthCredentials::to_json` (types.cpp). -/
def GeminiOAuthCredentials.to_json (c : GeminiOAuthCredentials) : Json :=
  [("access_token", JVal.str c.access_token),
   ("refresh_token", JVal.str c.refresh_token),
   ("token_type", JVal.str c.token_type),
   ("expiry_date", JVal.int c.expiry_date)]

/-- `TOKEN_REFRESH_BUFFER_MS` (types.hpp): five minutes, in milliseconds. -/
def TOKEN_REFRESH_BUFFER_MS : Int := 5 * 60 * 1000

/-- `OAuthManager::is_token_valid` (auth.cpp), with the current time in
milliseconds passed explicitly. -/
def is_token_valid (now : Int) (c : GeminiOAuthCredentials) : Bool :=
  if c.expiry_date = 0 then false
  else decide (now < c.expiry_date - TOKEN_REFRESH_BUFFER_MS)

/-- The SDK's error taxonomy (errors.hpp), flattened to a tagged value;
each constructor carries the message text the C++ constructor stores. -/
inductive SdkError where
  | credentialsNotFoundError (credential_path : String)
  | tokenRefreshError (msg : String)
  | connectionError (msg : String)
  | rateLimitError (msg : String)
  | permissionDeniedError (msg : String)
  | notFoundError (msg : String)
  | apiError (msg : String) (status_code : Nat)
  | onboardingError (msg : String) (tier : String)
  | sessionClosedError (session_id : String)
deriving DecidableEq

/-- `e.what()`: the human-readable message of an error value. -/
def SdkError.what : SdkError → String
  | .credentialsNotFoundError p => "Credentials not found at " ++ p
  | .tokenRefreshError m => m
  | .connectionError m => m
  | .rateLimitError m => m
  | .permissionDeniedError m => m
  | .notFoundError m => m
  | .apiError m _ => m
  | .onboardingError m _ => m
  | .sessionClosedError sid => "Session is closed: " ++ sid

/-- True exactly for the `NotFoundError` class of errors.hpp. -/
def SdkError.isNotFound : SdkError → Bool
  | .notFoundError _ => true
  | _ => false

/-- The token endpoint's response JSON, by the fields `refresh_access_token`
reads; `none` models an absent field. -/
structure TokenResponse where
  error : Option String
  error_description : Option String
  access_token : Option String
  refresh_token : Option String
  token_type : Option String
  expires_in : Option Int
deriving DecidableEq

/-- One observation of the token endpoint: transport success flag, HTTP
status, and the response body. -/
structure RefreshEnv where
  curl_ok : Bool
  http_code : Nat
  response : TokenResponse
deriving DecidableEq

/-- Observable actions of the token manager. -/
inductive AuthAction where
  | loadFile
  | refreshCall
  | saveFile (c : GeminiOAuthCredentials)
deriving DecidableEq

/-- `OAuthManager::refresh_access_token` (auth.cpp).  Takes the current
storage (credential file) content and returns the action trace, the new
storage content, and the outcome.  `save_credentials` is the storage
update performed on success (auth.cpp line 140). -/
def refresh_access_token (now : Int) (env : RefreshEnv)
    (storage : Option GeminiOAuthCredentials) (c : GeminiOAuthCredentials) :
    List AuthAction × Option GeminiOAuthCredentials × Except SdkError GeminiOAuthCredentials :=
  if c.refresh_token = "" then
    ([], storage, .error (.tokenRefreshError "No refresh token available in credentials."))
  else if ¬ env.curl_ok then
    ([.refreshCall], storage, .error (.tokenRefreshError "CURL error"))
  else if env.http_code ≠ 200 then
    ([.refreshCall], storage,
      .error (.tokenRefreshError ("Token refresh failed: " ++ toString env.http_code)))
  else if env.response.error.isSome then
    ([.refreshCall], storage,
      .error (.tokenRefreshError
        (env.response.error.getD "Unknown error" ++ ": " ++ env.response.error_description.getD "")))
  else
    let new_credentials : GeminiOAuthCredentials :=
      { access_token := env.response.access_token.getD ""
        refresh_token := env.response.refresh_token.getD c.refresh_token
        token_type := env.response.token_type.getD "Bearer"
        expiry_date := now + env.response.expires_in.getD 3600 * 1000 }
    ([.refreshCall, .saveFile new_credentials], some new_credentials, .ok new_credentials)

/-- The token manager's mutable state: the in-memory cached credential and
the content of the credential file. -/
structure AuthState where
  credentials : Option GeminiOAuthCredentials
  storage : Option GeminiOAuthCredentials
deriving DecidableEq

/-- `OAuthManager::ensure_authenticated` (auth.cpp): load the cached or
persisted credential, refresh when forced or invalid, and return the access
token.  Returns the action trace, the new state, and the outcome. -/
def ensure_authenticated (now : Int) (env : RefreshEnv) (force_refresh : Bool)
    (st : AuthState) : List AuthAction × AuthState × Except SdkError String :=
  let loaded : List AuthAction × Except SdkError GeminiOAuthCredentials :=
    match st.credentials with
    | some c => ([], .ok c)
    | none =>
      match st.storage with
      | some c => ([AuthAction.loadFile], .ok c)
      | none => ([AuthAction.loadFile], .error (.credentialsNotFoundError "oauth_creds.json"))
  match loaded with
  | (tr, .error e) => (tr, st, .error e)
  | (tr, .ok c) =>
    if force_refresh || !(is_token_valid now c) then
      match refresh_access_token now env st.storage c with
      | (tr1, storage1, .error e) =>
        (tr ++ tr1, { credentials := some c, storage := storage1 }, .error e)
      | (tr1, storage1, .ok c1) =>
        (tr ++ tr1, { credentials := some c1, storage := storage1 }, .ok c1.access_token)
    else
      (tr, { credentials := some c, storage := st.storage }, .ok c.access_token)

/-- `OAuthManager::invalidate_credentials` (auth.cpp). -/
def invalidate_credentials (st : AuthState) : AuthState :=
  { credentials := none, storage := st.storage }

/-- `FunctionCall` (types.hpp). -/
structure FunctionCall where
  name : String
  arguments : Json
deriving DecidableEq

/-- `ToolCall` (types.hpp). -/
structure ToolCall where
  id : String
  type : String := "function"
  function : FunctionCall
deriving DecidableEq

/-- `LLMUsage` (types.hpp). -/
structure LLMUsage where
  prompt_tokens : Int := 0
  completion_tokens : Int := 0
  total_tokens : Int := 0
deriving DecidableEq

/-- `LLMChunk` (types.hpp): the normalized provider response. -/
structure LLMChunk where
  content : String := ""
  reasoning_content : Option String := none
  tool_calls : List ToolCall := []
  usage : Option LLMUsage := none
  finish_reason : Option String := none
deriving DecidableEq

/-- `Backend::handle_http_error` (backend.cpp), with the error message the
code extracts from the response body passed in directly. -/
def handle_http_error (status_code : Nat) (error_msg : String) : SdkError :=
  match status_code with
  | 429 => .rateLimitError ("Rate limit exceeded: " ++ error_msg)
  | 403 => .permissionDeniedError ("Permission denied: " ++ error_msg)
  | _ => .apiError ("API error: " ++ error_msg) status_code

/-- One observation of the completion endpoint: transport success flag, HTTP
status, the error message a failing body carries, and the normalized chunk a
successful body parses to. -/
structure HttpAttempt where
  curl_ok : Bool
  http_code : Nat
  error_msg : String
  chunk : LLMChunk
deriving DecidableEq

/-- Observable actions of one `complete*` call. -/
inductive CallAction where
  | ensureAuth (force : Bool)
  | ensureProject
  | httpCall
  | invalidate
deriving DecidableEq

/-- The oracles a `complete*` call consults, indexed by attempt number:
the token manager's outcome, the project resolver's outcome, and the HTTP
response. -/
structure CompleteEnv where
  auth : Nat → Except SdkError String
  project : Nat → Except SdkError String
  http : Nat → HttpAttempt

/-- `Backend::complete_with_retry` (backend.cpp lines 446-504): obtain the
auth headers (forcing a refresh exactly when this is a retry attempt),
resolve the project, perform the HTTP call; on 401/403 at the first attempt
invalidate the cached credential and re-run the whole call once with
`retry_count = 1`; otherwise surface transport errors, map non-200 statuses
through `handle_http_error`, and return the parsed chunk on 200. -/
def complete_with_retry (env : CompleteEnv) (retry_count : Nat) :
    List CallAction × Except SdkError LLMChunk :=
  match env.auth retry_count with
  | .error e => ([.ensureAuth (decide (retry_count > 0))], .error e)
  | .ok _token =>
    match env.project retry_count with
    | .error e => ([.ensureAuth (decide (retry_count > 0)), .ensureProject], .error e)
    | .ok _project_id =>
      let pre : List CallAction :=
        [.ensureAuth (decide (retry_count > 0)), .ensureProject, .httpCall]
      let resp := env.http retry_count
      if h : (resp.http_code = 401 ∨ resp.http_code = 403) ∧ retry_count = 0 then
        let rec_result := complete_with_retry env 1
        (pre ++ [CallAction.invalidate] ++ rec_result.1, rec_result.2)
      else if ¬ resp.curl_ok then
        (pre, .error (.connectionError "CURL error"))
      else if resp.http_code ≠ 200 then
        (pre, .error (handle_http_error resp.http_code resp.error_msg))
      else
        (pre, .ok resp.chunk)
termination_by 1 - retry_count
decreasing_by simp [h.2]

/-- `Backend::complete` (backend.cpp): entry point, starting at attempt 0. -/
def complete (env : CompleteEnv) : List CallAction × Except SdkError LLMChunk :=
  complete_with_retry env 0

/-!
The SSE write callback of `Backend::complete_streaming_with_retry`
(backend.cpp lines 542-609).  Bytes are modelled as `List Char`; JSON
parsing plus the per-frame chunk extraction is a parameter
`parse : List Char → Option LLMChunk`, returning `none` exactly when
`json::parse` throws (the `catch (...) {}` that swallows malformed frames).
-/

/-- The trailing-trim loop: pop the line's last character while it is a
carriage return or line feed. -/
def trim_line (line : List Char) : List Char :=
  (line.reverse.dropWhile fun c => c = '\r' || c = '\n').reverse

/-- Leading-whitespace strip of the `data:` payload: the code replaces the
payload by its suffix from the first non-blank character, and leaves it
unchanged when `find_first_not_of` reports no such character. -/
def strip_leading_ws (data : List Char) : List Char :=
  if data.any (fun c => ¬ (c = ' ' || c = '\t')) then
    data.dropWhile (fun c => c = ' ' || c = '\t')
  else data

/-- Processing of one complete line: blank lines and comment lines are
dropped, `data:` lines are stripped, the `[DONE]` sentinel is dropped, and
any other payload is handed to the JSON parser; a parse failure is
swallowed.  The result is the chunk delivered to the callback, if any. -/
def process_line (parse : List Char → Option LLMChunk) (raw : List Char) :
    Option LLMChunk :=
  let line := trim_line raw
  if line.isEmpty || line.head? = some ':' then none
  else if "data:".toList.isPrefixOf line then
    let data := strip_leading_ws (line.drop 5)
    if data = "[DONE]".toList then none
    else parse data
  else none

/-- Split the buffer at its first line feed, returning the line (without the
line feed) and the remaining buffer. -/
def split_first_line : List Char → Option (List Char × List Char)
  | [] => none
  | c :: cs =>
    if c = '\n' then some ([], cs)
    else
      match split_first_line cs with
      | none => none
      | some (l, r) => some (c :: l, r)

/-- The write callback's inner loop: repeatedly extract complete lines from
the buffer and process each.  The fuel argument bounds the iteration count;
the loop consumes at least one buffered character per round, so a fuel of
the buffer's length always suffices. -/
def process_buffer_fuel (parse : List Char → Option LLMChunk) :
    Nat → List Char → List LLMChunk × List Char
  | 0, buf => ([], buf)
  | Nat.succ n, buf =>
    match split_first_line buf with
    | none => ([], buf)
    | some (line, rest) =>
      let emitted := process_line parse line
      let tail_result := process_buffer_fuel parse n rest
      (emitted.toList ++ tail_result.1, tail_result.2)

/-- One invocation of the `stream_write` lambda: append the arriving bytes
to the buffer, then process every complete line.  Returns the chunks
delivered to the callback (in order) and the new buffer. -/
def stream_write (parse : List Char → Option LLMChunk) (buf bytes : List Char) :
    List LLMChunk × List Char :=
  process_buffer_fuel parse (buf ++ bytes).length (buf ++ bytes)

/-- Feeding a sequence of arrival chunks through the write callback,
starting from an empty buffer, accumulating every callback delivery. -/
def feed_chunks (parse : List Char → Option LLMChunk) (arrivals : List (List Char)) :
    List LLMChunk × List Char :=
  arrivals.foldl
    (fun acc bytes =>
      let step := stream_write parse acc.2 bytes
      (acc.1 ++ step.1, step.2))
    ([], [])

/-!
Project resolution: `Backend::ensure_project_id` and
`Backend::onboard_for_project` (backend.cpp lines 148-305).  The two remote
endpoints are modelled by the response fields the code reads.
-/

/-- One entry of the `allowedTiers` array of a `loadCodeAssist` response;
`id = none` models an absent `id` field (read with default `free-tier`). -/
structure TierInfo where
  isDefault : Bool
  id : Option String
deriving DecidableEq

/-- A `loadCodeAssist` observation: transport flag, HTTP status, whether the
body has a `currentTier` field, its `cloudaicompanionProject` value, and the
`allowedTiers` array. -/
structure LoadResp where
  curl_ok : Bool
  http_code : Nat
  hasCurrentTier : Bool
  cloudaicompanionProject : Option String
  allowedTiers : List TierInfo
deriving DecidableEq

/-- An `onboardUser` long-running-operation observation: transport flag,
HTTP status, the `done` flag, and — when `response.cloudaicompanionProject`
is present — the project's `id` (read with default `""`). -/
structure LroResp where
  curl_ok : Bool
  http_code : Nat
  done : Bool
  responseProject : Option String
deriving DecidableEq

/-- Observable actions of project resolution. -/
inductive ProjAction where
  | loadCall
  | onboardCall
  | sleepSeconds (n : Nat)
deriving DecidableEq

/-- `ONBOARD_MAX_RETRIES` (backend.cpp). -/
def ONBOARD_MAX_RETRIES : Nat := 30

/-- `ONBOARD_SLEEP_SECONDS` (backend.cpp). -/
def ONBOARD_SLEEP_SECONDS : Nat := 2

/-- The tier-selection loop over `allowedTiers`: the first entry with
`isDefault` set supplies the tier id (default `free-tier`); with no such
entry the tier id stays `free-tier`. -/
def select_tier_id : List TierInfo → String
  | [] => "free-tier"
  | t :: rest =>
    if t.isDefault then t.id.getD "free-tier" else select_tier_id rest

/-- The polling loop of `onboard_for_project`: at most `fuel` further
attempts, the next attempt having index `i`.  The outcome is `ok (some pid)`
when a finished operation carries a project, `ok none` when the loop ends
without one (a finished operation without a project, or attempts
exhausted), and an error when an HTTP attempt fails. -/
def onboard_loop (env : Nat → LroResp) (tier_id : String) :
    Nat → Nat → List ProjAction × Except SdkError (Option String)
  | _, 0 => ([], .ok none)
  | i, Nat.succ fuel =>
    let r := env i
    if ¬ r.curl_ok || r.http_code ≠ 200 then
      ([.onboardCall], .error (.onboardingError "Onboard request failed" tier_id))
    else if r.done then
      match r.responseProject with
      | some pid => ([.onboardCall], .ok (some pid))
      | none => ([.onboardCall], .ok none)
    else
      let tail_result := onboard_loop env tier_id (i + 1) fuel
      (ProjAction.onboardCall :: ProjAction.sleepSeconds ONBOARD_SLEEP_SECONDS :: tail_result.1,
        tail_result.2)

/-- `Backend::onboard_for_project` (backend.cpp lines 225-305): run the
polling loop; a resolved project id is cached; falling out of the loop on
the free tier caches the empty id and succeeds, on any other tier it fails
with `OnboardingError`.  Returns trace, new cached `project_id_`, outcome. -/
def onboard_for_project (env : Nat → LroResp) (project_id : String) (tier_id : String) :
    List ProjAction × String × Except SdkError String :=
  match onboard_loop env tier_id 0 ONBOARD_MAX_RETRIES with
  | (tr, .error e) => (tr, project_id, .error e)
  | (tr, .ok (some pid)) => (tr, pid, .ok pid)
  | (tr, .ok none) =>
    if tier_id = "free-tier" then (tr, "", .ok "")
    else (tr, project_id, .error (.onboardingError "Failed to complete onboarding" tier_id))

/-- `Backend::ensure_project_id` (backend.cpp lines 148-223): return the
cached id when non-empty; otherwise perform the `loadCodeAssist` discovery
call; a bound `currentTier` yields (and caches) the bound project id, else
the resolver onboards under the selected default tier.  Returns the action
trace, the new cached `project_id_`, and the outcome. -/
def ensure_project_id (loadEnv : LoadResp) (onboardEnv : Nat → LroResp)
    (env_project_id : String) (project_id : String) :
    List ProjAction × String × Except SdkError String :=
  if project_id ≠ "" then ([], project_id, .ok project_id)
  else if ¬ loadEnv.curl_ok || loadEnv.http_code ≠ 200 then
    ([.loadCall], project_id, .error (.apiError "Gemini Code Assist access denied" loadEnv.http_code))
  else if loadEnv.hasCurrentTier then
    let pid := loadEnv.cloudaicompanionProject.getD env_project_id
    ([.loadCall], pid, .ok pid)
  else
    let tier_id := select_tier_id loadEnv.allowedTiers
    let onboard_result := onboard_for_project onboardEnv project_id tier_id
    (ProjAction.loadCall :: onboard_result.1, onboard_result.2)

/-!
Payload preparation: `Backend::prepare_messages` (backend.cpp lines
67-120).  Inline image data is carried as the raw bytes together with the
mime type.
-/

/-- `Role` (types.hpp). -/
inductive Role where
  | User
  | Assistant
  | System
deriving DecidableEq

/-- `ContentPart` (types.hpp). -/
structure ContentPart where
  text : Option String := none
  image_url : Option String := none
  image_data : Option (List Nat) := none
  image_mime_type : Option String := none
deriving DecidableEq

/-- `Message` (types.hpp). -/
structure Message where
  role : Role
  content : String := ""
  parts : List ContentPart := []
  name : Option String := none
  tool_calls : List ToolCall := []
  tool_call_id : Option String := none
deriving DecidableEq

/-- One part of a provider `contents` entry. -/
inductive ProviderPart where
  | text (s : String)
  | inlineData (mimeType : String) (data : List Nat)
  | functionCall (name : String) (args : Json)
  | functionResponse (name : String) (result : String)
deriving DecidableEq

/-- One entry of the provider `contents` array: a role and its parts. -/
structure ProviderContent where
  role : String
  parts : List ProviderPart
deriving DecidableEq

/-- The translation of one `ContentPart`: a `text` field contributes a text
part, and complete image data contributes an `inlineData` part. -/
def translate_part (part : ContentPart) : List ProviderPart :=
  (match part.text with
   | some t => [ProviderPart.text t]
   | none => []) ++
  (match part.image_data, part.image_mime_type with
   | some data, some mime => [ProviderPart.inlineData mime data]
   | _, _ => [])

/-- The loop body of `prepare_messages` for one message: assistant maps to
role `model`, everything else to `user`; the accumulated parts are the
non-empty content text, the translated content parts, one `functionCall`
per tool call, and a `functionResponse` when the message links a tool
result; a message with no parts yields no entry. -/
def prepare_one (msg : Message) : Option ProviderContent :=
  let role := if msg.role = Role.Assistant then "model" else "user"
  let content_parts : List ProviderPart :=
    (if msg.content ≠ "" then [ProviderPart.text msg.content] else []) ++
    (msg.parts.map translate_part).flatten ++
    msg.tool_calls.map (fun tc => ProviderPart.functionCall tc.function.name tc.function.arguments) ++
    (match msg.tool_call_id with
     | some _ => [ProviderPart.functionResponse (msg.name.getD "") msg.content]
     | none => [])
  if content_parts.isEmpty then none else some { role := role, parts := content_parts }

/-- `Backend::prepare_messages` (backend.cpp lines 67-120). -/
def prepare_messages (messages : List Message) : List ProviderContent :=
  messages.filterMap prepare_one

/-!
The conversation session: `Session::send`, `Session::get_response`,
`Session::stream_response` and `Session::handle_tool_calls` (session.cpp).
Events are modelled by their kind and the payload fields the code puts in
them; the backend is an oracle supplying either the buffered chunk or the
streamed chunk sequence, either of which may end in a thrown error.
-/

/-- A session event as delivered to handlers, by kind and payload. -/
inductive Ev where
  | assistantMessageDelta (delta accumulated : String)
  | assistantReasoningDelta (delta accumulated : String)
  | toolCall (name id : String)
  | toolResult (name id payload : String)
  | assistantReasoning (content : String)
  | assistantMessage (content : String)
  | sessionIdle
  | sessionError (msg : String)
deriving DecidableEq

/-- `ToolResult` (types.hpp), by the fields the session reads. -/
structure ToolCallResult where
  text_result_for_llm : Option String := none
deriving DecidableEq

/-- `ToolInvocation` (types.hpp). -/
structure ToolInvocation where
  name : String
  arguments : Json
  call_id : String

/-- A registered tool handler; `Except.error` models a thrown exception,
carrying `e.what()`. -/
def ToolHandlerFn := ToolInvocation → Except String ToolCallResult

/-- `Session::handle_tool_calls` (session.cpp lines 299-374): per provider
call, emit `ToolCall`; with no registered handler append a synthesized
failure message and continue; otherwise invoke the handler and emit
`ToolResult` with the result text, or with the wrapped error text when the
handler throws; either way append a linked transcript message.  Returns the
emitted events and the appended messages, in order. -/
def handle_tool_calls (handlers : List (String × ToolHandlerFn)) :
    List ToolCall → List Ev × List Message
  | [] => ([], [])
  | tc :: rest =>
    let tool_name := tc.function.name
    let tail_result := handle_tool_calls handlers rest
    match handlers.lookup tool_name with
    | none =>
      let error_msg : Message :=
        { role := Role.User
          content := "Error: Tool '" ++ tool_name ++ "' not found"
          name := some tool_name
          tool_call_id := some tc.id }
      (Ev.toolCall tool_name tc.id :: tail_result.1, error_msg :: tail_result.2)
    | some handler =>
      let invocation : ToolInvocation :=
        { name := tool_name, arguments := tc.function.arguments, call_id := tc.id }
      match handler invocation with
      | .ok result =>
        let result_text := result.text_result_for_llm.getD "Success"
        let result_msg : Message :=
          { role := Role.User, content := result_text
            name := some tool_name, tool_call_id := some tc.id }
        (Ev.toolCall tool_name tc.id :: Ev.toolResult tool_name tc.id result_text :: tail_result.1,
          result_msg :: tail_result.2)
      | .error e =>
        let err_text := "Error executing tool '" ++ tool_name ++ "': " ++ e
        let result_msg : Message :=
          { role := Role.User, content := err_text
            name := some tool_name, tool_call_id := some tc.id }
        (Ev.toolCall tool_name tc.id :: Ev.toolResult tool_name tc.id err_text :: tail_result.1,
          result_msg :: tail_result.2)

/-- `Session::get_response` (session.cpp lines 237-297), given the buffered
backend outcome: run the tool loop when tool calls are present, append the
assistant message, then emit the optional `AssistantReasoning`, the
`AssistantMessage` and `SessionIdle`.  A backend error propagates (third
component) with no events and no transcript change. -/
def get_response (handlers : List (String × ToolHandlerFn))
    (outcome : Except SdkError LLMChunk) :
    List Ev × List Message × Option SdkError :=
  match outcome with
  | .error e => ([], [], some e)
  | .ok chunk =>
    let tool_part :=
      if chunk.tool_calls.isEmpty then ([], [])
      else handle_tool_calls handlers chunk.tool_calls
    let assistant_message : Message :=
      { role := Role.Assistant, content := chunk.content, tool_calls := chunk.tool_calls }
    let reasoning_events :=
      match chunk.reasoning_content with
      | some r => [Ev.assistantReasoning r]
      | none => []
    (tool_part.1 ++ reasoning_events ++ [Ev.assistantMessage chunk.content, Ev.sessionIdle],
      tool_part.2 ++ [assistant_message], none)

/-- The accumulator of the streaming callback: accumulated content,
accumulated reasoning, collected tool calls, last usage, emitted deltas. -/
structure StreamAcc where
  full_content : String := ""
  full_reasoning : String := ""
  all_tool_calls : List ToolCall := []
  final_usage : Option LLMUsage := none
  events : List Ev := []

/-- The streaming callback body (session.cpp lines 162-186): emit a content
delta for non-empty content, a reasoning delta when reasoning is present,
collect the chunk's tool calls, and remember the last usage counters. -/
def stream_callback_step (acc : StreamAcc) (chunk : LLMChunk) : StreamAcc :=
  let acc1 :=
    if chunk.content ≠ "" then
      { acc with
        full_content := acc.full_content ++ chunk.content
        events := acc.events ++
          [Ev.assistantMessageDelta chunk.content (acc.full_content ++ chunk.content)] }
    else acc
  let acc2 :=
    match chunk.reasoning_content with
    | some r =>
      { acc1 with
        full_reasoning := acc1.full_reasoning ++ r
        events := acc1.events ++
          [Ev.assistantReasoningDelta r (acc1.full_reasoning ++ r)] }
    | none => acc1
  let acc3 := { acc2 with all_tool_calls := acc2.all_tool_calls ++ chunk.tool_calls }
  match chunk.usage with
  | some u => { acc3 with final_usage := some u }
  | none => acc3

/-- `Session::stream_response` (session.cpp lines 145-235), given the chunk
sequence the backend delivers and whether the streaming call then throws:
accumulate deltas, then (unless the call threw) run the tool loop, append
the assistant message and emit the closing events. -/
def stream_response (handlers : List (String × ToolHandlerFn))
    (chunks : List LLMChunk) (stream_error : Option SdkError) :
    List Ev × List Message × Option SdkError :=
  let acc := chunks.foldl stream_callback_step {}
  match stream_error with
  | some e => (acc.events, [], some e)
  | none =>
    let tool_part :=
      if acc.all_tool_calls.isEmpty then ([], [])
      else handle_tool_calls handlers acc.all_tool_calls
    let assistant_message : Message :=
      { role := Role.Assistant, content := acc.full_content
        tool_calls := acc.all_tool_calls }
    let reasoning_events :=
      if acc.full_reasoning ≠ "" then [Ev.assistantReasoning acc.full_reasoning] else []
    (acc.events ++ tool_part.1 ++ reasoning_events ++
        [Ev.assistantMessage acc.full_content, Ev.sessionIdle],
      tool_part.2 ++ [assistant_message], none)

/-- The backend oracle one `send` consults: the buffered outcome, or the
streamed chunks followed by an optional thrown error. -/
structure SendOracle where
  buffered : Except SdkError LLMChunk
  stream_chunks : List LLMChunk
  stream_error : Option SdkError

/-- Session state: the closed flag and the transcript. -/
structure SessionState where
  closed : Bool
  messages : List Message

/-- `Session::send` (session.cpp lines 82-115): fail if closed, append the
user message (context prefixed), dispatch to the streaming or buffered
path, and on an exception emit `SessionError` and re-raise.  Returns the
events delivered to handlers, the new state, and the re-raised error. -/
def send (streaming : Bool) (handlers : List (String × ToolHandlerFn))
    (oracle : SendOracle) (st : SessionState) (prompt : String)
    (context : Option String) : List Ev × SessionState × Option SdkError :=
  if st.closed then ([], st, some (.sessionClosedError "session"))
  else
    let content :=
      match context with
      | some ctx => ctx ++ "\n\n" ++ prompt
      | none => prompt
    let user_message : Message := { role := Role.User, content := content }
    let st1 : SessionState := { closed := st.closed, messages := st.messages ++ [user_message] }
    let body :=
      if streaming then stream_response handlers oracle.stream_chunks oracle.stream_error
      else get_response handlers oracle.buffered
    match body with
    | (evs, new_messages, some e) =>
      (evs ++ [Ev.sessionError e.what],
        { closed := st1.closed, messages := st1.messages ++ new_messages }, some e)
    | (evs, new_messages, none) =>
      (evs, { closed := st1.closed, messages := st1.messages ++ new_messages }, none)

/-! ## Event-sequence shapes for one `send` turn -/

/-- A completion environment whose HTTP oracle always answers 404. -/
def c8_env : CompleteEnv :=
  { auth := fun _ => .ok "token"
    project := fun _ => .ok "proj"
    http := fun _ => { curl_ok := true, http_code := 404, error_msg := "missing", chunk := {} } }

/-- The discovery response of an account with no bound tier and no
allowed-tiers list: onboarding proceeds on the free tier. -/
def c7_load : LoadResp :=
  { curl_ok := true, http_code := 200, hasCurrentTier := false
    cloudaicompanionProject := none, allowedTiers := [] }

/-- A long-running operation that finishes immediately with no explicit
project: the free tier's terminal no-project state. -/
def c7_onboard : Nat → LroResp := fun _ =>
  { curl_ok := true, http_code := 200, done := true, responseProject := none }

/-- The discovery response of an account whose default tier is a paid one. -/
def c7w_load : LoadResp :=
  { curl_ok := true, http_code := 200, hasCurrentTier := false
    cloudaicompanionProject := none
    allowedTiers := [{ isDefault := true, id := some "standard-tier" }] }

/-- A long-running operation that never finishes. -/
def c7w_onboard : Nat → LroResp := fun _ =>
  { curl_ok := true, http_code := 200, done := false, responseProject := none }

/-- A completion environment that answers 401 on every attempt. -/
def c1_env : CompleteEnv :=
  { auth := fun _ => .ok "token"
    project := fun _ => .ok "proj"
    http := fun _ => { curl_ok := true, http_code := 401, error_msg := "expired", chunk := {} } }

/-- Draining all complete lines of a buffer: the loop run with fuel equal
to the buffer's length. -/
def drain (parse : List Char → Option LLMChunk) (buf : List Char) :
    List LLMChunk × List Char :=
  process_buffer_fuel parse buf.length buf

/-- The byte sequence of the claim's streaming-parser property. -/
def sse_example : String := "data: \x7b\x22a\x22:1\x7d\n\ndata: [DONE]\n"

/-- Its JSON payload. -/
def json_payload : String := "\x7b\x22a\x22:1\x7d"

/-- A concrete JSON parser for the witness: it accepts exactly the
example's payload. -/
def c2_parse : List Char → Option LLMChunk := fun l =>
  if l = json_payload.toList then some { content := "hello" } else none

/-- The streaming-delta event kinds. -/
def isDelta : Ev → Bool
  | .assistantMessageDelta _ _ => true
  | .assistantReasoningDelta _ _ => true
  | _ => false

/-- Recognizer for the tail of the claimed grammar: an optional
`AssistantReasoning`, one `AssistantMessage`, one `SessionIdle`, end. -/
def claimed_tail : List Ev → Bool
  | Ev.assistantReasoning _ :: Ev.assistantMessage _ :: Ev.sessionIdle :: [] => true
  | Ev.assistantMessage _ :: Ev.sessionIdle :: [] => true
  | _ => false

/-- Recognizer for the claimed tool-phase grammar: zero or more strict
`ToolCall`/`ToolResult` pairs, then the closing tail. -/
def claimed_pairs_then_tail : List Ev → Bool
  | Ev.toolCall _ _ :: Ev.toolResult _ _ _ :: rest => claimed_pairs_then_tail rest
  | evs => claimed_tail evs

/-- The claim's grammar for a successful turn: zero or more delta events,
zero or more `ToolCall`/`ToolResult` pairs, an optional
`AssistantReasoning`, one `AssistantMessage`, one `SessionIdle`. -/
def claimed_success_shape : List Ev → Bool
  | [] => false
  | e :: rest =>
    if isDelta e then claimed_success_shape rest
    else claimed_pairs_then_tail (e :: rest)

/-- The tool phase as the code actually emits it: per provider call one
`ToolCall`, followed by its `ToolResult` exactly when a handler ran. -/
inductive ToolEventSeq : List Ev → Prop
  | nil : ToolEventSeq []
  | callOnly (n i : String) (rest : List Ev) :
      ToolEventSeq rest → ToolEventSeq (Ev.toolCall n i :: rest)
  | callWithResult (n i p : String) (rest : List Ev) :
      ToolEventSeq rest → ToolEventSeq (Ev.toolCall n i :: Ev.toolResult n i p :: rest)

/-- A successful turn's event sequence: deltas, then the tool phase, then
an optional `AssistantReasoning`, one `AssistantMessage`, one
`SessionIdle`. -/
def SuccessShape (evs : List Ev) : Prop :=
  ∃ deltas tools reasoning content,
    evs = deltas ++ tools ++ reasoning ++ [Ev.assistantMessage content, Ev.sessionIdle] ∧
    deltas.all isDelta = true ∧ ToolEventSeq tools ∧
    (reasoning = [] ∨ ∃ r, reasoning = [Ev.assistantReasoning r])

/-- A turn's event sequence: the successful shape, or deltas followed by a
single closing `SessionError`. -/
def TurnShape (evs : List Ev) : Prop :=
  SuccessShape evs ∨
  ∃ deltas msg, evs = deltas ++ [Ev.sessionError msg] ∧ deltas.all isDelta = true

/-- A model answer containing one tool call for an unregistered tool. -/
def c5_chunk : LLMChunk :=
  { content := ""
    tool_calls := [{ id := "call1", function := { name := "get_weather", arguments := [] } }] }

/-- A buffered backend oracle answering with `c5_chunk`. -/
def c5_oracle : SendOracle :=
  { buffered := .ok c5_chunk, stream_chunks := [], stream_error := none }

/-- The concrete unhandled tool call of the counterexample. -/
def c6_tc : ToolCall :=
  { id := "call1", function := { name := "get_weather", arguments := [] } }

/-! ## Theorems -/

/-- When every polled attempt in range answers HTTP 200 with `done = false`,
the onboarding loop runs out of attempts: it performs exactly `fuel`
onboarding calls (each followed by a fixed 2-second sleep) and resolves no
project. -/
theorem onboard_loop_exhausts (env : Nat → LroResp) (tier_id : String) :
    ∀ fuel i,
      (∀ j, i ≤ j → j < i + fuel →
        (env j).curl_ok = true ∧ (env j).http_code = 200 ∧ (env j).done = false) →
      (onboard_loop env tier_id i fuel).2 = .ok none ∧
      (onboard_loop env tier_id i fuel).1.count ProjAction.onboardCall = fuel ∧
      (onboard_loop env tier_id i fuel).1.count
        (ProjAction.sleepSeconds ONBOARD_SLEEP_SECONDS) = fuel := by
  intro fuel
  induction fuel with
  | zero => intro i _; exact ⟨rfl, rfl, rfl⟩
  | succ n ih =>
    intro i hall
    have hi := hall i (le_refl i) (by omega)
    have htail := ih (i + 1) (fun j h1 h2 => hall j (by omega) (by omega))
    simp [onboard_loop, hi.1, hi.2.1, hi.2.2, List.count_cons,
      htail.1, htail.2.1, htail.2.2]

/-- C9: serializing a credential to its persisted JSON form with `to_json`
and reloading it with `from_json` yields a credential identical in all four
fields. -/
theorem credentials_json_roundtrip (c : GeminiOAuthCredentials) :
    GeminiOAuthCredentials.from_json c.to_json = c := by
  cases c
  rfl

/-- C8 counterexample: a 404 response is mapped to the generic `APIError`
carrying status 404, not to `NotFoundError` as the claim states —
`handle_http_error` has no 404 case at all. -/
theorem handle_http_error_404_not_notfound :
    handle_http_error 404 "no such model" =
      SdkError.apiError ("API error: " ++ "no such model") 404 ∧
    (handle_http_error 404 "no such model").isNotFound = false := by
  constructor
  · rfl
  · rfl

/-- C8 amended: the status-to-error mapping raises `RateLimitError` for
429, `PermissionDeniedError` for 403, and a generic `APIError` carrying the
status code for every other non-200 status (404 included); a completion
call whose response has such a status (outside the retried first-attempt
401/403 case) surfaces exactly that error. -/
theorem handle_http_error_mapping (env : CompleteEnv) (t0 p0 : String)
    (status : Nat) (msg : String)
    (h429 : status ≠ 429) (h403 : status ≠ 403)
    (ha0 : env.auth 0 = .ok t0) (hp0 : env.project 0 = .ok p0)
    (hst : (env.http 0).http_code = status)
    (hok : (env.http 0).curl_ok = true)
    (hne : status ≠ 200) (hne401 : status ≠ 401) :
    handle_http_error 429 msg = .rateLimitError ("Rate limit exceeded: " ++ msg) ∧
    handle_http_error 403 msg = .permissionDeniedError ("Permission denied: " ++ msg) ∧
    handle_http_error status msg = .apiError ("API error: " ++ msg) status ∧
    (complete_with_retry env 0).2 =
      .error (handle_http_error status (env.http 0).error_msg) := by
  refine ⟨rfl, rfl, ?_, ?_⟩
  · unfold handle_http_error
    split
    · exact absurd rfl h429
    · exact absurd rfl h403
    · rfl
  · rw [complete_with_retry]
    rw [ha0, hp0]
    have hcond : ¬ (((env.http 0).http_code = 401 ∨ (env.http 0).http_code = 403) ∧ 0 = 0) := by
      rw [hst]
      simp [hne401, h403]
    rw [dif_neg hcond]
    rw [hst] at *
    simp [hok, hne]

/-- C8 witness: the mapping at the concrete statuses 429, 403 and 404, and
a completion call against a 404-answering endpoint. -/
theorem handle_http_error_mapping_witness :
    handle_http_error 429 "m" = SdkError.rateLimitError ("Rate limit exceeded: " ++ "m") ∧
    handle_http_error 403 "m" = SdkError.permissionDeniedError ("Permission denied: " ++ "m") ∧
    handle_http_error 404 "m" = SdkError.apiError ("API error: " ++ "m") 404 ∧
    (complete_with_retry c8_env 0).2 =
      .error (handle_http_error 404 (c8_env.http 0).error_msg) :=
  handle_http_error_mapping c8_env "token" "proj" 404 "m" (by decide) (by decide)
    rfl rfl rfl rfl (by decide) (by decide)

/-- Every successful onboarding run stores its result as the new cached
project id. -/
theorem onboard_for_project_caches (env : Nat → LroResp) (pid0 tier_id : String) :
    ∀ tr st r, onboard_for_project env pid0 tier_id = (tr, st, .ok r) → st = r := by
  intro tr st r h
  unfold onboard_for_project at h
  rcases hl : onboard_loop env tier_id 0 ONBOARD_MAX_RETRIES with ⟨ltr, lres⟩
  rw [hl] at h
  cases lres with
  | error e => simp at h
  | ok op =>
    cases op with
    | some p =>
      simp at h
      rw [← h.2.1]
      exact h.2.2
    | none =>
      by_cases hfree : tier_id = "free-tier"
      · simp [hfree] at h
        rw [← h.2.1]
        exact h.2.2
      · simp [hfree] at h

/-- C7 amended: a non-empty cached project id is returned as-is in O(1)
with no further request of any kind; every successful resolution stores its
result as the new cached id (so a non-empty result makes all later calls
O(1)); and on a tier other than `free-tier`, thirty polling attempts that
all come back unfinished exhaust the 30-attempt bound and fail with
`OnboardingError`.  (The free-tier empty-id outcome is a success but leaves
the cache empty, so it is not memoized — see the counterexample.) -/
theorem ensure_project_id_memoization (loadEnv : LoadResp) (onboardEnv : Nat → LroResp)
    (env_project_id : String) (project_id : String)
    (hcached : project_id ≠ "") :
    ensure_project_id loadEnv onboardEnv env_project_id project_id =
      ([], project_id, .ok project_id) ∧
    (∀ tr st r,
      ensure_project_id loadEnv onboardEnv env_project_id "" = (tr, st, .ok r) → st = r) ∧
    ((∀ i, i < ONBOARD_MAX_RETRIES →
        (onboardEnv i).curl_ok = true ∧ (onboardEnv i).http_code = 200 ∧
        (onboardEnv i).done = false) →
      loadEnv.curl_ok = true → loadEnv.http_code = 200 → loadEnv.hasCurrentTier = false →
      select_tier_id loadEnv.allowedTiers ≠ "free-tier" →
      (ensure_project_id loadEnv onboardEnv env_project_id "").1.count
          ProjAction.onboardCall = ONBOARD_MAX_RETRIES ∧
      (ensure_project_id loadEnv onboardEnv env_project_id "").2.2 =
        .error (.onboardingError "Failed to complete onboarding"
          (select_tier_id loadEnv.allowedTiers))) := by
  refine ⟨by simp [ensure_project_id, hcached], ?_, ?_⟩
  · intro tr st r h
    simp only [ensure_project_id] at h
    rw [if_neg (by simp)] at h
    split at h
    · simp at h
    · split at h
      · simp at h
        rw [← h.2.1]
        exact h.2.2
      · rcases hob : onboard_for_project onboardEnv "" (select_tier_id loadEnv.allowedTiers)
          with ⟨otr, ost, ores⟩
        rw [hob] at h
        simp at h
        rw [← h.2.1]
        have := onboard_for_project_caches onboardEnv "" (select_tier_id loadEnv.allowedTiers)
          otr ost r
        apply this
        rw [hob, h.2.2]
  · intro hall hok h200 htier hfree
    have hloop := onboard_loop_exhausts onboardEnv (select_tier_id loadEnv.allowedTiers)
      ONBOARD_MAX_RETRIES 0 (fun j h1 h2 => hall j (by omega))
    rcases hl : onboard_loop onboardEnv (select_tier_id loadEnv.allowedTiers) 0
        ONBOARD_MAX_RETRIES with ⟨ltr, lres⟩
    rw [hl] at hloop
    simp only at hloop
    obtain ⟨hres, hcount, hsleep⟩ := hloop
    subst hres
    have hepi : ensure_project_id loadEnv onboardEnv env_project_id "" =
        (ProjAction.loadCall :: ltr, "",
          .error (.onboardingError "Failed to complete onboarding"
            (select_tier_id loadEnv.allowedTiers))) := by
      simp [ensure_project_id, hok, h200, htier, onboard_for_project, hl, hfree]
    rw [hepi]
    constructor
    · simp [List.count_cons, hcount]
    · rfl

/-- C7 counterexample: after the free-tier outcome succeeds with an empty
project id, the next call does not return from cache — it performs another
`loadCodeAssist` discovery request (the empty cached id fails the
`!project_id_.empty()` memo check), contradicting the claim that every
later call is answered from cache with no discovery request. -/
theorem ensure_project_id_empty_not_memoized :
    (ensure_project_id c7_load c7_onboard "" "").2.2 = .ok "" ∧
    (ensure_project_id c7_load c7_onboard ""
        (ensure_project_id c7_load c7_onboard "" "").2.1).1.count ProjAction.loadCall = 1 ∧
    (ensure_project_id c7_load c7_onboard ""
        (ensure_project_id c7_load c7_onboard "" "").2.1).1 ≠ [] := by
  refine ⟨rfl, rfl, ?_⟩
  decide

/-- C7 witness: a concretely cached non-empty id is returned unchanged with
an empty trace, and a non-free tier that never finishes onboarding within
30 attempts fails with `OnboardingError` after exactly 30 polls. -/
theorem ensure_project_id_memoization_witness :
    ensure_project_id c7w_load c7w_onboard "" "cached-project" =
      ([], "cached-project", .ok "cached-project") ∧
    (∀ tr st r,
      ensure_project_id c7w_load c7w_onboard "" "" = (tr, st, .ok r) → st = r) ∧
    ((∀ i, i < ONBOARD_MAX_RETRIES →
        (c7w_onboard i).curl_ok = true ∧ (c7w_onboard i).http_code = 200 ∧
        (c7w_onboard i).done = false) →
      c7w_load.curl_ok = true → c7w_load.http_code = 200 → c7w_load.hasCurrentTier = false →
      select_tier_id c7w_load.allowedTiers ≠ "free-tier" →
      (ensure_project_id c7w_load c7w_onboard "" "").1.count
          ProjAction.onboardCall = ONBOARD_MAX_RETRIES ∧
      (ensure_project_id c7w_load c7w_onboard "" "").2.2 =
        .error (.onboardingError "Failed to complete onboarding"
          (select_tier_id c7w_load.allowedTiers))) :=
  ensure_project_id_memoization c7w_load c7w_onboard "" "cached-project" (by decide)

/-- The retried attempt (`retry_count = 1`) never recurses: its trace is at
most one forced-auth, one project resolution and one HTTP call, and the
outcome is read off the attempt-1 oracles directly. -/
theorem complete_with_retry_one_unfold (env : CompleteEnv) :
    complete_with_retry env 1 =
      match env.auth 1 with
      | .error e => ([.ensureAuth true], .error e)
      | .ok _ =>
        match env.project 1 with
        | .error e => ([.ensureAuth true, .ensureProject], .error e)
        | .ok _ =>
          ([.ensureAuth true, .ensureProject, .httpCall],
            if ¬ (env.http 1).curl_ok then
              .error (.connectionError "CURL error")
            else if (env.http 1).http_code ≠ 200 then
              .error (handle_http_error (env.http 1).http_code (env.http 1).error_msg)
            else .ok (env.http 1).chunk) := by
  rw [complete_with_retry]
  cases env.auth 1 with
  | error e => rfl
  | ok t =>
    cases env.project 1 with
    | error e => rfl
    | ok p =>
      rw [dif_neg (by simp)]
      by_cases hcu : (env.http 1).curl_ok
      · by_cases h200 : (env.http 1).http_code = 200 <;> simp [hcu, h200]
      · simp [hcu]

/-- C1: when the first attempt of `complete` comes back 401 or 403, the
cached credential is invalidated and the whole call is re-executed exactly
once with a forced refresh: the trace is first-attempt auth (unforced),
project resolution, HTTP call, invalidation, then the retried attempt,
which performs no further invalidation, at most one further HTTP call, and
only forced auth; and when the retried attempt fails with 401 or 403 again,
that error is surfaced through `handle_http_error` with no further retry
(exactly two HTTP calls in total). -/
theorem complete_retries_once_on_auth_status (env : CompleteEnv) (t0 p0 : String)
    (ha0 : env.auth 0 = .ok t0) (hp0 : env.project 0 = .ok p0)
    (h401 : (env.http 0).http_code = 401 ∨ (env.http 0).http_code = 403) :
    complete_with_retry env 0 =
      ([.ensureAuth false, .ensureProject, .httpCall, .invalidate] ++
          (complete_with_retry env 1).1,
        (complete_with_retry env 1).2) ∧
    (complete_with_retry env 1).1.count CallAction.invalidate = 0 ∧
    (complete_with_retry env 1).1.count CallAction.httpCall ≤ 1 ∧
    (∀ f, CallAction.ensureAuth f ∈ (complete_with_retry env 1).1 → f = true) ∧
    (∀ t1 p1, env.auth 1 = .ok t1 → env.project 1 = .ok p1 →
      ((env.http 1).http_code = 401 ∨ (env.http 1).http_code = 403) →
      (env.http 1).curl_ok = true →
      complete_with_retry env 1 =
        ([.ensureAuth true, .ensureProject, .httpCall],
          .error (handle_http_error (env.http 1).http_code (env.http 1).error_msg)) ∧
      ((complete_with_retry env 0).1.count CallAction.httpCall = 2 ∧
        (complete_with_retry env 0).2 =
          .error (handle_http_error (env.http 1).http_code (env.http 1).error_msg))) := by
  have hfirst : complete_with_retry env 0 =
      ([.ensureAuth false, .ensureProject, .httpCall, .invalidate] ++
          (complete_with_retry env 1).1,
        (complete_with_retry env 1).2) := by
    rw [complete_with_retry]
    rw [ha0, hp0]
    rw [dif_pos ⟨h401, rfl⟩]
    rfl
  have hone := complete_with_retry_one_unfold env
  have hsecond : ∀ t1 p1, env.auth 1 = .ok t1 → env.project 1 = .ok p1 →
      ((env.http 1).http_code = 401 ∨ (env.http 1).http_code = 403) →
      (env.http 1).curl_ok = true →
      complete_with_retry env 1 =
        ([.ensureAuth true, .ensureProject, .httpCall],
          .error (handle_http_error (env.http 1).http_code (env.http 1).error_msg)) := by
    intro t1 p1 ha1 hp1 h401b hok
    rw [hone, ha1, hp1]
    have hne : (env.http 1).http_code ≠ 200 := by omega
    simp [hok, hne]
  refine ⟨hfirst, ?_, ?_, ?_, ?_⟩
  · rw [hone]
    cases env.auth 1 with
    | error e => rfl
    | ok t =>
      cases env.project 1 with
      | error e => rfl
      | ok p => rfl
  · rw [hone]
    cases env.auth 1 with
    | error e => simp [List.count_cons]
    | ok t =>
      cases env.project 1 with
      | error e => simp [List.count_cons]
      | ok p => simp [List.count_cons]
  · rw [hone]
    cases env.auth 1 with
    | error e => intro f hf; simpa using hf
    | ok t =>
      cases env.project 1 with
      | error e => intro f hf; simpa using hf
      | ok p => intro f hf; simpa using hf
  · intro t1 p1 ha1 hp1 h401b hok
    have h2 := hsecond t1 p1 ha1 hp1 h401b hok
    refine ⟨h2, ?_, ?_⟩
    · rw [hfirst, h2]
      rfl
    · rw [hfirst, h2]

/-- C1 witness: against an endpoint that answers 401 on both attempts, the
call invalidates, retries exactly once with a forced refresh, performs two
HTTP calls in total, and surfaces the second failure. -/
theorem complete_retries_once_on_auth_status_witness :
    complete_with_retry c1_env 0 =
      ([.ensureAuth false, .ensureProject, .httpCall, .invalidate] ++
          (complete_with_retry c1_env 1).1,
        (complete_with_retry c1_env 1).2) ∧
    (complete_with_retry c1_env 1).1.count CallAction.invalidate = 0 ∧
    (complete_with_retry c1_env 1).1.count CallAction.httpCall ≤ 1 ∧
    (∀ f, CallAction.ensureAuth f ∈ (complete_with_retry c1_env 1).1 → f = true) ∧
    (∀ t1 p1, c1_env.auth 1 = .ok t1 → c1_env.project 1 = .ok p1 →
      ((c1_env.http 1).http_code = 401 ∨ (c1_env.http 1).http_code = 403) →
      (c1_env.http 1).curl_ok = true →
      complete_with_retry c1_env 1 =
        ([.ensureAuth true, .ensureProject, .httpCall],
          .error (handle_http_error (c1_env.http 1).http_code (c1_env.http 1).error_msg)) ∧
      ((complete_with_retry c1_env 0).1.count CallAction.httpCall = 2 ∧
        (complete_with_retry c1_env 0).2 =
          .error (handle_http_error (c1_env.http 1).http_code (c1_env.http 1).error_msg))) :=
  complete_retries_once_on_auth_status c1_env "token" "proj" rfl rfl (Or.inl rfl)

/-- C3: with a cached credential whose expiry lies more than the refresh
buffer beyond the current (non-negative epoch-milliseconds) time,
`ensure_authenticated(false)` returns that credential's access token with
no action at all: no file load, no token-endpoint call, no save, and the
manager state (cached credential and storage) is unchanged. -/
theorem ensure_authenticated_fresh_noop (now : Int) (env : RefreshEnv)
    (st : AuthState) (c : GeminiOAuthCredentials) (hnow : 0 ≤ now)
    (hc : st.credentials = some c)
    (hfresh : TOKEN_REFRESH_BUFFER_MS < c.expiry_date - now) :
    ensure_authenticated now env false st = ([], st, .ok c.access_token) := by
  have hbuf : TOKEN_REFRESH_BUFFER_MS = 300000 := by decide
  have hvalid : is_token_valid now c = true := by
    have hne : c.expiry_date ≠ 0 := by omega
    simp only [is_token_valid, hne, if_false]
    rw [decide_eq_true_eq]
    omega
  obtain ⟨cr, sto⟩ := st
  simp only at hc
  subst hc
  simp [ensure_authenticated, hvalid]

/-- C3 witness: a credential expiring well past the buffer at time 0. -/
theorem ensure_authenticated_fresh_noop_witness :
    ensure_authenticated 0
      { curl_ok := true, http_code := 200
        response := { error := none, error_description := none, access_token := none
                      refresh_token := none, token_type := none, expires_in := none } }
      false
      { credentials := some { access_token := "tok", refresh_token := "r", expiry_date := 4000000 }
        storage := none } =
    ([], { credentials := some { access_token := "tok", refresh_token := "r", expiry_date := 4000000 }
           storage := none }, .ok "tok") :=
  ensure_authenticated_fresh_noop 0 _ _
    { access_token := "tok", refresh_token := "r", expiry_date := 4000000 }
    (by decide) rfl (by decide)

/-- C4: with a cached credential that is expired or within the refresh
buffer, and a refresh environment that succeeds, `ensure_authenticated
(false)` performs exactly one token-endpoint call, persists the refreshed
credential (one `saveFile`, storage overwritten), caches it, and returns
its access token. -/
theorem ensure_authenticated_stale_refreshes (now : Int) (env : RefreshEnv)
    (st : AuthState) (c : GeminiOAuthCredentials)
    (hc : st.credentials = some c)
    (hstale : c.expiry_date - now ≤ TOKEN_REFRESH_BUFFER_MS)
    (hrt : c.refresh_token ≠ "")
    (hok : env.curl_ok = true) (h200 : env.http_code = 200)
    (herr : env.response.error = none) :
    ensure_authenticated now env false st =
      ([AuthAction.refreshCall,
        AuthAction.saveFile
          { access_token := env.response.access_token.getD ""
            refresh_token := env.response.refresh_token.getD c.refresh_token
            token_type := env.response.token_type.getD "Bearer"
            expiry_date := now + env.response.expires_in.getD 3600 * 1000 }],
        { credentials := some
            { access_token := env.response.access_token.getD ""
              refresh_token := env.response.refresh_token.getD c.refresh_token
              token_type := env.response.token_type.getD "Bearer"
              expiry_date := now + env.response.expires_in.getD 3600 * 1000 }
          storage := some
            { access_token := env.response.access_token.getD ""
              refresh_token := env.response.refresh_token.getD c.refresh_token
              token_type := env.response.token_type.getD "Bearer"
              expiry_date := now + env.response.expires_in.getD 3600 * 1000 } },
        .ok (env.response.access_token.getD "")) := by
  have hinvalid : is_token_valid now c = false := by
    by_cases hz : c.expiry_date = 0
    · simp [is_token_valid, hz]
    · simp only [is_token_valid, hz, if_false]
      rw [decide_eq_false_iff_not]
      have hbuf : TOKEN_REFRESH_BUFFER_MS = 300000 := by decide
      omega
  obtain ⟨cr, sto⟩ := st
  simp only at hc
  subst hc
  simp [ensure_authenticated, hinvalid, refresh_access_token, hrt, hok, h200, herr]

/-- C4 witness: an expired credential refreshed against a successful token
endpoint at time 1000. -/
theorem ensure_authenticated_stale_refreshes_witness :
    ensure_authenticated 1000
      { curl_ok := true, http_code := 200
        response := { error := none, error_description := none, access_token := some "newtok"
                      refresh_token := none, token_type := none, expires_in := some 3600 } }
      false
      { credentials := some { access_token := "old", refresh_token := "r", expiry_date := 500 }
        storage := some { access_token := "old", refresh_token := "r", expiry_date := 500 } } =
    ([AuthAction.refreshCall,
      AuthAction.saveFile
        { access_token := "newtok", refresh_token := "r", token_type := "Bearer"
          expiry_date := 3601000 }],
      { credentials := some
          { access_token := "newtok", refresh_token := "r", token_type := "Bearer"
            expiry_date := 3601000 }
        storage := some
          { access_token := "newtok", refresh_token := "r", token_type := "Bearer"
            expiry_date := 3601000 } },
      .ok "newtok") :=
  ensure_authenticated_stale_refreshes 1000 _ _
    { access_token := "old", refresh_token := "r", expiry_date := 500 }
    rfl (by decide) (by decide) rfl rfl rfl

/-- C10: `prepare_messages` maps an assistant message to provider role
`model` and user or system messages to provider role `user`; a message with
empty content and no parts, tool calls, or tool-result linkage contributes
no entry to the provider payload. -/
theorem prepare_messages_roles_and_empty (messages : List Message) (msg : Message) :
    prepare_messages messages = messages.filterMap prepare_one ∧
    (∀ e, prepare_one msg = some e →
      (msg.role = Role.Assistant → e.role = "model") ∧
      (msg.role = Role.User ∨ msg.role = Role.System → e.role = "user")) ∧
    (msg.content = "" → msg.parts = [] → msg.tool_calls = [] → msg.tool_call_id = none →
      prepare_messages (msg :: messages) = prepare_messages messages) := by
  refine ⟨rfl, ?_, ?_⟩
  · intro e he
    simp only [prepare_one] at he
    split at he <;> split at he <;>
      first
      | (have he2 := Option.some.inj he
         subst he2
         exact ⟨fun hr => by simp [hr], fun hr => by rcases hr with hr | hr <;> simp [hr]⟩)
      | exact absurd he (by simp)
  · intro h1 h2 h3 h4
    simp [prepare_messages, prepare_one, h1, h2, h3, h4]

/-- C10 witness: a concrete assistant message maps to role `model`, a
concrete user message maps to role `user`, and a concrete fully-empty
message contributes nothing. -/
theorem prepare_messages_roles_and_empty_witness :
    (∀ e, prepare_one { role := Role.Assistant, content := "hi" } = some e →
      (Role.Assistant = Role.Assistant → e.role = "model") ∧
      (Role.Assistant = Role.User ∨ Role.Assistant = Role.System → e.role = "user")) ∧
    prepare_messages [{ role := Role.User }] = prepare_messages [] :=
  ⟨(prepare_messages_roles_and_empty [] { role := Role.Assistant, content := "hi" }).2.1,
    (prepare_messages_roles_and_empty [] { role := Role.User }).2.2 rfl rfl rfl rfl⟩

/-- A successful line split accounts for every buffered character: the line,
the line feed, and the rest. -/
theorem split_first_line_length :
    ∀ {buf l r : List Char}, split_first_line buf = some (l, r) →
      buf.length = l.length + r.length + 1 := by
  intro buf
  induction buf with
  | nil => intro l r h; simp [split_first_line] at h
  | cons c cs ih =>
    intro l r h
    simp only [split_first_line] at h
    split at h
    · have h2 := Option.some.inj h
      rw [Prod.mk.injEq] at h2
      rw [← h2.1, ← h2.2]
      simp
    · rcases hs : split_first_line cs with _ | ⟨l2, r2⟩ <;> rw [hs] at h
      · cases h
      · have h2 := Option.some.inj h
        rw [Prod.mk.injEq] at h2
        rw [← h2.1, ← h2.2]
        have := ih hs
        simp [this]
        omega

/-- Splitting after an append: the first line of `a ++ b` is the first line
of `a` when `a` has one; otherwise `a` is line-feed-free and prepends to the
first line of `b`. -/
theorem split_first_line_append (a b : List Char) :
    split_first_line (a ++ b) =
      match split_first_line a with
      | some (l, r) => some (l, r ++ b)
      | none =>
        match split_first_line b with
        | some (l, r) => some (a ++ l, r)
        | none => none := by
  induction a with
  | nil =>
    simp only [List.nil_append, split_first_line]
    rcases split_first_line b with _ | ⟨l, r⟩ <;> rfl
  | cons c cs ih =>
    simp only [List.cons_append, split_first_line, List.append_eq]
    split
    · rfl
    · rw [ih]
      rcases split_first_line cs with _ | ⟨l, r⟩
      · rcases split_first_line b with _ | ⟨l2, r2⟩ <;> rfl
      · rfl

/-- The loop's result does not depend on the fuel, as long as the fuel
covers the buffer's length. -/
theorem process_buffer_fuel_irrel (parse : List Char → Option LLMChunk) :
    ∀ n m buf, buf.length ≤ n → buf.length ≤ m →
      process_buffer_fuel parse n buf = process_buffer_fuel parse m buf := by
  intro n
  induction n with
  | zero =>
    intro m buf hn hm
    have hb : buf = [] := List.eq_nil_of_length_eq_zero (Nat.le_zero.mp hn)
    subst hb
    cases m with
    | zero => rfl
    | succ m2 => rfl
  | succ n2 ih =>
    intro m buf hn hm
    cases m with
    | zero =>
      have hb : buf = [] := List.eq_nil_of_length_eq_zero (Nat.le_zero.mp hm)
      subst hb
      rfl
    | succ m2 =>
      rcases hs : split_first_line buf with _ | ⟨l, r⟩
      · simp only [process_buffer_fuel, hs]
      · have hlen := split_first_line_length hs
        have h1 : r.length ≤ n2 := by omega
        have h2 : r.length ≤ m2 := by omega
        simp only [process_buffer_fuel, hs]
        rw [ih m2 r h1 h2]

theorem stream_write_eq_drain (parse : List Char → Option LLMChunk)
    (buf bytes : List Char) :
    stream_write parse buf bytes = drain parse (buf ++ bytes) := rfl

theorem drain_no_newline (parse : List Char → Option LLMChunk) {buf : List Char}
    (h : split_first_line buf = none) : drain parse buf = ([], buf) := by
  unfold drain
  cases hb : buf with
  | nil => rfl
  | cons c cs =>
    rw [← hb]
    cases hl : buf.length with
    | zero => simp [hb] at hl
    | succ n => simp only [process_buffer_fuel, h]

theorem drain_cons_line (parse : List Char → Option LLMChunk) {buf l r : List Char}
    (h : split_first_line buf = some (l, r)) :
    drain parse buf =
      ((process_line parse l).toList ++ (drain parse r).1, (drain parse r).2) := by
  have hlen := split_first_line_length h
  unfold drain
  cases hl : buf.length with
  | zero => omega
  | succ n =>
    simp only [process_buffer_fuel, h]
    rw [process_buffer_fuel_irrel parse n r.length r (by omega) (le_refl _)]

/-- Draining an extended buffer factors through draining the original buffer
and then draining its leftover extended by the new bytes. -/
theorem drain_append_aux (parse : List Char → Option LLMChunk) :
    ∀ n : Nat, ∀ x b : List Char, x.length = n →
      drain parse (x ++ b) =
        ((drain parse x).1 ++ (drain parse ((drain parse x).2 ++ b)).1,
          (drain parse ((drain parse x).2 ++ b)).2) := by
  intro n
  induction n using Nat.strong_induction_on with
  | _ n ih =>
    intro x b hn
    rcases hs : split_first_line x with _ | ⟨l, r⟩
    · rw [drain_no_newline parse hs]
      simp
    · have hsx : split_first_line (x ++ b) = some (l, r ++ b) := by
        rw [split_first_line_append, hs]
      have hlen := split_first_line_length hs
      rw [drain_cons_line parse hs, drain_cons_line parse hsx]
      have hr := ih r.length (by omega) r b rfl
      rw [hr]
      simp

theorem drain_append (parse : List Char → Option LLMChunk) (x b : List Char) :
    drain parse (x ++ b) =
      ((drain parse x).1 ++ (drain parse ((drain parse x).2 ++ b)).1,
        (drain parse ((drain parse x).2 ++ b)).2) :=
  drain_append_aux parse x.length x b rfl

/-- The leftover buffer after a drain holds no complete line. -/
theorem drain_leftover_aux (parse : List Char → Option LLMChunk) :
    ∀ n : Nat, ∀ x : List Char, x.length = n →
      split_first_line (drain parse x).2 = none := by
  intro n
  induction n using Nat.strong_induction_on with
  | _ n ih =>
    intro x hn
    rcases hs : split_first_line x with _ | ⟨l, r⟩
    · rw [drain_no_newline parse hs]
      exact hs
    · rw [drain_cons_line parse hs]
      have hlen := split_first_line_length hs
      exact ih r.length (by omega) r rfl

theorem drain_leftover (parse : List Char → Option LLMChunk) (x : List Char) :
    split_first_line (drain parse x).2 = none :=
  drain_leftover_aux parse x.length x rfl

/-- Folding arrival chunks from an accumulator whose buffer holds no
complete line equals draining the concatenation. -/
theorem feed_chunks_fold (parse : List Char → Option LLMChunk) :
    ∀ (arrivals : List (List Char)) (out : List LLMChunk) (buf : List Char),
      split_first_line buf = none →
      arrivals.foldl
        (fun acc bytes =>
          let step := stream_write parse acc.2 bytes
          (acc.1 ++ step.1, step.2))
        (out, buf) =
      (out ++ (drain parse (buf ++ arrivals.flatten)).1,
        (drain parse (buf ++ arrivals.flatten)).2) := by
  intro arrivals
  induction arrivals with
  | nil =>
    intro out buf hbuf
    rw [List.foldl_nil, List.flatten_nil, List.append_nil,
      drain_no_newline parse hbuf]
    simp
  | cons a rest ih =>
    intro out buf hbuf
    rw [List.foldl_cons]
    have hstep :
        (let step := stream_write parse (out, buf).2 a
         ((out, buf).1 ++ step.1, step.2)) =
        (out ++ (drain parse (buf ++ a)).1, (drain parse (buf ++ a)).2) := rfl
    rw [hstep]
    rw [ih (out ++ (drain parse (buf ++ a)).1) (drain parse (buf ++ a)).2
      (drain_leftover parse (buf ++ a))]
    rw [List.flatten_cons, ← List.append_assoc]
    rw [drain_append parse (buf ++ a) rest.flatten]
    simp

/-- Feeding a chunk sequence equals one write of their concatenation. -/
theorem feed_chunks_eq_join (parse : List Char → Option LLMChunk)
    (arrivals : List (List Char)) :
    feed_chunks parse arrivals = stream_write parse [] arrivals.flatten := by
  unfold feed_chunks
  rw [feed_chunks_fold parse arrivals [] [] rfl]
  rw [stream_write_eq_drain]
  simp

theorem dropWhile_append_singleton (p : Char → Bool) (l : List Char) (c : Char)
    (hc : p c = false) :
    (l ++ [c]).dropWhile p = l.dropWhile p ++ [c] := by
  induction l with
  | nil => simp [List.dropWhile, hc]
  | cons d ds ih =>
    by_cases hd : p d
    · simp [List.dropWhile_cons, hd, ih]
    · simp [List.dropWhile_cons, hd]

/-- Trailing-trim leaves a leading character that is neither a carriage
return nor a line feed in place. -/
theorem trim_line_cons (c : Char) (xs : List Char)
    (hc : (c = '\r' || c = '\n') = false) :
    trim_line (c :: xs) = c :: trim_line xs := by
  unfold trim_line
  rw [List.reverse_cons, dropWhile_append_singleton _ _ _ hc, List.reverse_append]
  rfl

/-- The whole example stream emits exactly the one chunk its JSON line
parses to: the blank line and the `[DONE]` line produce nothing. -/
theorem sse_example_emits (parse : List Char → Option LLMChunk) (c : LLMChunk)
    (hparse : parse json_payload.toList = some c) :
    (stream_write parse [] sse_example.toList).1 = [c] := by
  have hs1 : split_first_line sse_example.toList =
      some ("data: \x7b\x22a\x22:1\x7d".toList, "\ndata: [DONE]\n".toList) := rfl
  have hs2 : split_first_line "\ndata: [DONE]\n".toList =
      some (([] : List Char), "data: [DONE]\n".toList) := rfl
  have hs3 : split_first_line "data: [DONE]\n".toList =
      some ("data: [DONE]".toList, ([] : List Char)) := rfl
  have hp1 : process_line parse "data: \x7b\x22a\x22:1\x7d".toList =
      parse json_payload.toList := rfl
  have hp2 : process_line parse ([] : List Char) = none := rfl
  have hp3 : process_line parse "data: [DONE]".toList = none := rfl
  have hnil : stream_write parse [] sse_example.toList =
      drain parse sse_example.toList := rfl
  rw [hnil, drain_cons_line parse hs1, drain_cons_line parse hs2,
    drain_cons_line parse hs3, hp1, hp2, hp3, hparse]
  rfl

/-- C2: the streaming SSE parser.  (1) Feeding a byte sequence split into
arbitrary arrival chunks behaves exactly like feeding it whole.  (2) A
blank line produces no callback, (3) nor does a line beginning with a
colon.  (4) A line whose trimmed form is `data:` followed by a payload
strips the prefix and leading blanks, drops the `[DONE]` sentinel without
a callback and without error, delivers any payload the JSON parser accepts
to the callback, and silently skips any payload it rejects.  (5) Stripping
removes exactly the leading spaces and tabs whenever the payload has any
other character.  (6) Feeding the claim's example byte sequence, split at
arbitrary chunk boundaries, invokes the callback exactly once — with the
parsed JSON chunk, never with `[DONE]`. -/
theorem sse_parser_behavior (parse : List Char → Option LLMChunk) (c : LLMChunk)
    (hparse : parse json_payload.toList = some c) :
    (∀ arrivals : List (List Char),
      feed_chunks parse arrivals = stream_write parse [] arrivals.flatten) ∧
    process_line parse [] = none ∧
    (∀ rest : List Char, process_line parse (':' :: rest) = none) ∧
    (∀ line payload : List Char, trim_line line = "data:".toList ++ payload →
      process_line parse line =
        if strip_leading_ws payload = "[DONE]".toList then none
        else parse (strip_leading_ws payload)) ∧
    (∀ payload : List Char,
      payload.any (fun ch => ¬ (ch = ' ' || ch = '\t')) = true →
      strip_leading_ws payload = payload.dropWhile (fun ch => ch = ' ' || ch = '\t')) ∧
    (∀ arrivals : List (List Char), arrivals.flatten = sse_example.toList →
      (feed_chunks parse arrivals).1 = [c]) := by
  refine ⟨feed_chunks_eq_join parse, rfl, ?_, ?_, ?_, ?_⟩
  · intro rest
    unfold process_line
    rw [trim_line_cons ':' rest (by decide)]
    simp
  · intro line payload h
    unfold process_line
    rw [h]
    have hne : ("data:".toList ++ payload).isEmpty = false := rfl
    have hhead : ("data:".toList ++ payload).head? = some 'd' := rfl
    have hpre : "data:".toList.isPrefixOf ("data:".toList ++ payload) = true := by
      rw [List.isPrefixOf_iff_prefix]
      exact List.prefix_append _ _
    have hdrop : ("data:".toList ++ payload).drop 5 = payload := by
      have : ("data:".toList).length = 5 := rfl
      rw [← this, List.drop_left]
    simp only [hne, hhead, hpre, hdrop]
    simp
  · intro payload h
    unfold strip_leading_ws
    rw [if_pos]
    simpa using h
  · intro arrivals h
    rw [feed_chunks_eq_join parse, h]
    exact sse_example_emits parse c hparse

/-- C2 witness: at the concrete parser, the example byte sequence split
into three arrival chunks — the cuts landing inside the `data:` prefix of
both lines — invokes the callback exactly once. -/
theorem sse_parser_behavior_witness :
    c2_parse json_payload.toList = some { content := "hello" } ∧
    (feed_chunks c2_parse ["da".toList, "ta: \x7b\x22a\x22:1\x7d\n\nda".toList,
        "ta: [DONE]\n".toList]).1 = [{ content := "hello" }] :=
  ⟨rfl,
    (sse_parser_behavior c2_parse { content := "hello" } rfl).2.2.2.2.2
      ["da".toList, "ta: \x7b\x22a\x22:1\x7d\n\nda".toList, "ta: [DONE]\n".toList] rfl⟩

/-- The tool loop emits the `ToolCall`-with-optional-`ToolResult` phase. -/
theorem handle_tool_calls_shape (handlers : List (String × ToolHandlerFn)) :
    ∀ tcs : List ToolCall, ToolEventSeq (handle_tool_calls handlers tcs).1 := by
  intro tcs
  induction tcs with
  | nil => exact ToolEventSeq.nil
  | cons tc rest ih =>
    rcases hl : handlers.lookup tc.function.name with _ | handler
    · simp only [handle_tool_calls, hl]
      exact ToolEventSeq.callOnly _ _ _ ih
    · rcases hr : handler ⟨tc.function.name, tc.function.arguments, tc.id⟩ with e | result
      · simp only [handle_tool_calls, hl, hr]
        exact ToolEventSeq.callWithResult _ _ _ _ ih
      · simp only [handle_tool_calls, hl, hr]
        exact ToolEventSeq.callWithResult _ _ _ _ ih

/-- Each streaming-callback step only appends delta events. -/
theorem stream_callback_step_deltas (acc : StreamAcc) (chunk : LLMChunk)
    (h : acc.events.all isDelta = true) :
    (stream_callback_step acc chunk).events.all isDelta = true := by
  unfold stream_callback_step
  rcases chunk.usage with _ | u <;>
    rcases chunk.reasoning_content with _ | r <;>
      by_cases hc : chunk.content ≠ "" <;>
        simp [hc, h, isDelta]

/-- The accumulated streaming events are all deltas. -/
theorem stream_fold_deltas (chunks : List LLMChunk) :
    ∀ acc : StreamAcc, acc.events.all isDelta = true →
      (chunks.foldl stream_callback_step acc).events.all isDelta = true := by
  induction chunks with
  | nil => intro acc h; exact h
  | cons chunk rest ih =>
    intro acc h
    rw [List.foldl_cons]
    exact ih _ (stream_callback_step_deltas acc chunk h)

/-- The buffered path: on success the events form the success shape with no
deltas; on a backend error no events are emitted at all. -/
theorem get_response_body_shape (handlers : List (String × ToolHandlerFn))
    (outcome : Except SdkError LLMChunk) :
    ((get_response handlers outcome).2.2 = none →
      SuccessShape (get_response handlers outcome).1) ∧
    (∀ e, (get_response handlers outcome).2.2 = some e →
      (get_response handlers outcome).1.all isDelta = true) := by
  rcases outcome with e | chunk
  · refine ⟨?_, ?_⟩
    · intro h
      simp [get_response] at h
    · intro e2 h
      rfl
  · refine ⟨?_, ?_⟩
    · intro h
      refine ⟨[],
        (if chunk.tool_calls.isEmpty then (([], []) : List Ev × List Message)
          else handle_tool_calls handlers chunk.tool_calls).1,
        (match chunk.reasoning_content with
          | some r => [Ev.assistantReasoning r]
          | none => []),
        chunk.content, rfl, rfl, ?_, ?_⟩
      · split
        · exact ToolEventSeq.nil
        · exact handle_tool_calls_shape handlers chunk.tool_calls
      · rcases chunk.reasoning_content with _ | r
        · exact Or.inl rfl
        · exact Or.inr ⟨r, rfl⟩
    · intro e2 h
      simp [get_response] at h

/-- The streaming path: on success the events are the accumulated deltas
followed by the success tail; when the streaming call throws, the events
emitted so far are deltas only. -/
theorem stream_response_body_shape (handlers : List (String × ToolHandlerFn))
    (chunks : List LLMChunk) (serr : Option SdkError) :
    ((stream_response handlers chunks serr).2.2 = none →
      SuccessShape (stream_response handlers chunks serr).1) ∧
    (∀ e, (stream_response handlers chunks serr).2.2 = some e →
      (stream_response handlers chunks serr).1.all isDelta = true) := by
  have hacc : (chunks.foldl stream_callback_step {}).events.all isDelta = true :=
    stream_fold_deltas chunks {} rfl
  rcases hserr : serr with _ | e
  · refine ⟨?_, ?_⟩
    · intro h
      refine ⟨(chunks.foldl stream_callback_step {}).events,
        (if (chunks.foldl stream_callback_step {}).all_tool_calls.isEmpty
          then (([], []) : List Ev × List Message)
          else handle_tool_calls handlers
            (chunks.foldl stream_callback_step {}).all_tool_calls).1,
        (if (chunks.foldl stream_callback_step {}).full_reasoning ≠ ""
          then [Ev.assistantReasoning (chunks.foldl stream_callback_step {}).full_reasoning]
          else []),
        (chunks.foldl stream_callback_step {}).full_content, ?_, hacc, ?_, ?_⟩
      · simp [stream_response]
      · split
        · exact ToolEventSeq.nil
        · exact handle_tool_calls_shape handlers _
      · split
        · exact Or.inr ⟨_, rfl⟩
        · exact Or.inl rfl
    · intro e2 h
      simp [stream_response] at h
  · refine ⟨?_, ?_⟩
    · intro h
      simp [stream_response] at h
    · intro e2 h
      exact hacc

/-- C5 amended: for a single `send` on an open session, the handler-visible
event sequence is: zero or more delta events (streaming only), then per
provider-returned tool call one `ToolCall` followed by its `ToolResult`
exactly when a handler is registered (a missing handler leaves the
`ToolCall` unpaired), then an optional `AssistantReasoning`, one
`AssistantMessage` and one `SessionIdle`; on failure the tail after the
deltas is replaced by a single `SessionError`. -/
theorem send_event_order (streaming : Bool) (handlers : List (String × ToolHandlerFn))
    (oracle : SendOracle) (st : SessionState) (prompt : String)
    (context : Option String) (hopen : st.closed = false) :
    TurnShape (send streaming handlers oracle st prompt context).1 := by
  cases streaming with
  | false =>
    rcases hb : get_response handlers oracle.buffered with ⟨evs, msgs, err⟩
    have hshape := get_response_body_shape handlers oracle.buffered
    rw [hb] at hshape
    rcases err with _ | e
    · have hevs : (send false handlers oracle st prompt context).1 = evs := by
        simp [send, hopen, hb]
      rw [hevs]
      exact Or.inl (hshape.1 rfl)
    · have hevs : (send false handlers oracle st prompt context).1 =
          evs ++ [Ev.sessionError e.what] := by
        simp [send, hopen, hb]
      rw [hevs]
      exact Or.inr ⟨evs, e.what, rfl, hshape.2 e rfl⟩
  | true =>
    rcases hb : stream_response handlers oracle.stream_chunks oracle.stream_error
      with ⟨evs, msgs, err⟩
    have hshape := stream_response_body_shape handlers oracle.stream_chunks oracle.stream_error
    rw [hb] at hshape
    rcases err with _ | e
    · have hevs : (send true handlers oracle st prompt context).1 = evs := by
        simp [send, hopen, hb]
      rw [hevs]
      exact Or.inl (hshape.1 rfl)
    · have hevs : (send true handlers oracle st prompt context).1 =
          evs ++ [Ev.sessionError e.what] := by
        simp [send, hopen, hb]
      rw [hevs]
      exact Or.inr ⟨evs, e.what, rfl, hshape.2 e rfl⟩

/-- C5 counterexample: a successful turn (no `SessionError`, third
component `none`) whose model response carries one tool call with no
registered handler emits `ToolCall`, `AssistantMessage`, `SessionIdle` —
a `ToolCall` with no `ToolResult` — so the event sequence does not match
the claim's grammar of strict `ToolCall`/`ToolResult` pairs. -/
theorem send_events_not_strict_pairs :
    (send false [] c5_oracle { closed := false, messages := [] } "hi" none).1 =
      [Ev.toolCall "get_weather" "call1", Ev.assistantMessage "", Ev.sessionIdle] ∧
    (send false [] c5_oracle { closed := false, messages := [] } "hi" none).2.2 = none ∧
    claimed_success_shape
      (send false [] c5_oracle { closed := false, messages := [] } "hi" none).1 = false := by
  refine ⟨by decide, by decide, by decide⟩

/-- C5 witness: the amended shape at a concrete streaming turn — two
streamed chunks (content and reasoning), one registered tool whose handler
succeeds. -/
theorem send_event_order_witness :
    TurnShape (send true
      [("get_weather", fun _ => .ok { text_result_for_llm := some "72F" })]
      { buffered := .ok {}
        stream_chunks :=
          [{ content := "hel", reasoning_content := some "think" },
           { content := "lo",
             tool_calls := [{ id := "c1", function := { name := "get_weather", arguments := [] } }] }]
        stream_error := none }
      { closed := false, messages := [] } "hi" none).1 :=
  send_event_order true
    [("get_weather", fun _ => .ok { text_result_for_llm := some "72F" })]
    { buffered := .ok {}
      stream_chunks :=
        [{ content := "hel", reasoning_content := some "think" },
         { content := "lo",
           tool_calls := [{ id := "c1", function := { name := "get_weather", arguments := [] } }] }]
      stream_error := none }
    { closed := false, messages := [] } "hi" none rfl

/-- C6 amended: a tool call whose name has no registered handler emits its
`ToolCall` event, emits no `ToolResult` for that call, appends one
synthesized failure message — role user, content
`Error: Tool '<name>' not found`, tagged with the call's name and id — and
processing continues with the remaining calls unchanged; the buffered turn
containing such a call still completes, with no propagated exception and a
closing `AssistantMessage` followed by `SessionIdle`. -/
theorem missing_tool_handler_recovers (handlers : List (String × ToolHandlerFn))
    (tc : ToolCall) (rest : List ToolCall) (chunk : LLMChunk)
    (hno : handlers.lookup tc.function.name = none)
    (_hlinked : chunk.tool_calls = tc :: rest) :
    handle_tool_calls handlers (tc :: rest) =
      (Ev.toolCall tc.function.name tc.id :: (handle_tool_calls handlers rest).1,
        { role := Role.User
          content := "Error: Tool '" ++ tc.function.name ++ "' not found"
          name := some tc.function.name
          tool_call_id := some tc.id } :: (handle_tool_calls handlers rest).2) ∧
    (∀ p, Ev.toolResult tc.function.name tc.id p ∉ (handle_tool_calls handlers [tc]).1) ∧
    (get_response handlers (.ok chunk)).2.2 = none ∧
    (∃ pre, (get_response handlers (.ok chunk)).1 =
      pre ++ [Ev.assistantMessage chunk.content, Ev.sessionIdle]) := by
  refine ⟨?_, ?_, rfl, ?_⟩
  · simp only [handle_tool_calls, hno]
  · intro p
    simp only [handle_tool_calls, hno]
    simp
  · refine ⟨(if chunk.tool_calls.isEmpty then (([], []) : List Ev × List Message)
        else handle_tool_calls handlers chunk.tool_calls).1 ++
      (match chunk.reasoning_content with
        | some r => [Ev.assistantReasoning r]
        | none => []), ?_⟩
    simp [get_response]

/-- C6 counterexample: with no handler registered for `get_weather`, the
transcript message the tool loop synthesizes has content
`Error: Tool 'get_weather' not found` — not the claim's exact text
`Tool 'get_weather' not found`, which appears in no appended message. -/
theorem missing_tool_message_text :
    (handle_tool_calls [] [c6_tc]).2 =
      [{ role := Role.User
         content := "Error: Tool 'get_weather' not found"
         name := some "get_weather"
         tool_call_id := some "call1" }] ∧
    (∀ m ∈ (handle_tool_calls [] [c6_tc]).2,
      m.content ≠ "Tool 'get_weather' not found") := by
  refine ⟨rfl, ?_⟩
  decide

/-- C6 witness: the amended behavior at the concrete unhandled call,
inside a buffered response carrying it. -/
theorem missing_tool_handler_recovers_witness :
    handle_tool_calls [] [c6_tc] =
      (Ev.toolCall c6_tc.function.name c6_tc.id :: (handle_tool_calls [] []).1,
        { role := Role.User
          content := "Error: Tool '" ++ c6_tc.function.name ++ "' not found"
          name := some c6_tc.function.name
          tool_call_id := some c6_tc.id } :: (handle_tool_calls [] []).2) ∧
    (∀ p, Ev.toolResult c6_tc.function.name c6_tc.id p ∉ (handle_tool_calls [] [c6_tc]).1) ∧
    (get_response [] (.ok { content := "ok", tool_calls := [c6_tc] })).2.2 = none ∧
    (∃ pre, (get_response [] (.ok { content := "ok", tool_calls := [c6_tc] })).1 =
      pre ++ [Ev.assistantMessage ({ content := "ok", tool_calls := [c6_tc] } : LLMChunk).content,
        Ev.sessionIdle]) :=
  missing_tool_handler_recovers [] c6_tc [] { content := "ok", tool_calls := [c6_tc] } rfl rfl

end GeminiSDK
